import Mathlib

/-!
Verification of the rspamd task engine (`src/libserver/task.c`) against its
natural-language specification.

The development shallowly embeds the relevant C functions as executable Lean
definitions over an explicit `TaskState` record.  Machine integers that are
used as bitmaps (`processed_stages`, requested-stage masks) are modelled as
`Nat` with the bitwise operations `&&&`, `|||`, `<<<`; `gdouble` symbol scores
are idealised as `ℚ` (the comparator facts proved below are robust under this
idealisation and are discussed at the relevant theorems); fallible C functions
returning `gboolean` with a `GError **` out-parameter become functions
returning a `Bool × TaskState` pair.  External collaborators (parser, lua
hosts, classifier, UCL parser, syscalls) are modelled as explicit environment
records of functions, since their code is not part of this repository.
-/

/-! ### Constants

Stage bits.  The numeric values come from the ordered stage list fixed by the
specification (the `RSPAMD_TASK_STAGE_*` enum lives in `task.h`, which is not
part of the covered source; the spec fixes the order
`READ_MESSAGE < PRE_FILTERS < … < LEARN_POST < DONE`, each a distinct bit). -/

def RSPAMD_TASK_STAGE_READ_MESSAGE : Nat := 1 <<< 0

def RSPAMD_TASK_STAGE_PRE_FILTERS : Nat := 1 <<< 1

def RSPAMD_TASK_STAGE_FILTERS : Nat := 1 <<< 2

def RSPAMD_TASK_STAGE_CLASSIFIERS_PRE : Nat := 1 <<< 3

def RSPAMD_TASK_STAGE_CLASSIFIERS : Nat := 1 <<< 4

def RSPAMD_TASK_STAGE_CLASSIFIERS_POST : Nat := 1 <<< 5

def RSPAMD_TASK_STAGE_COMPOSITES : Nat := 1 <<< 6

def RSPAMD_TASK_STAGE_POST_FILTERS : Nat := 1 <<< 7

def RSPAMD_TASK_STAGE_LEARN_PRE : Nat := 1 <<< 8

def RSPAMD_TASK_STAGE_LEARN : Nat := 1 <<< 9

def RSPAMD_TASK_STAGE_LEARN_POST : Nat := 1 <<< 10

def RSPAMD_TASK_STAGE_DONE : Nat := 1 <<< 11

/-- Modelled from the spec: the all-stages request mask (`task.h`). -/
def RSPAMD_TASK_PROCESS_ALL : Nat := (1 <<< 12) - 1

/-- Modelled from the spec: `METRIC_ACTION_REJECT` is the first member of the
action enum (`filter.h`, not in the covered source). -/
def METRIC_ACTION_REJECT : Nat := 0

/-- Modelled from the spec: the `METRIC_ACTION_MAX` sentinel meaning "no
pre-result is set". -/
def METRIC_ACTION_MAX : Nat := 6

/-- Modelled from the spec: the code of the `ProtocolError` kind
(`RSPAMD_PROTOCOL_ERROR` in `protocol.h`); only its identity matters here. -/
def RSPAMD_PROTOCOL_ERROR : Nat := 1

/-- The GQuark domain string used by `rspamd_task_quark`. -/
def taskErrDomain : String := "task-error"

/-- Modelled from the spec: the name of the default metric (`DEFAULT_METRIC`). -/
def DEFAULT_METRIC : String := "default"

/-- `max_log_elts` from task.c: do not print more than this amount of elts. -/
def max_log_elts : Nat := 7

/-! ### Stage selector (`rspamd_task_select_processing_stage`)

The C function computes, from the `processed_stages` bitmap `mask`, the bit
position just above the highest set bit (`for (st = 1; mask != 1; st ++)
mask >>= 1;`, with `st = 0` for an empty bitmap), then walks upwards: a
candidate stage requested in `stages` is returned; an unrequested candidate
below `DONE` is ORed into `processed_stages` ("assumed done") and the search
recurses; otherwise `DONE` is returned.  The recursion is bounded by the 12
stage bits, so it is rendered with an explicit structural counter. -/

/-- The highest-set-bit loop of `rspamd_task_select_processing_stage`:
`for (st = 1; mask != 1; st ++) mask = mask >> 1;`.  `fuel ≥ mask` makes the
structural recursion total; the loop runs `log2 mask` times. -/
def hbLoop : Nat → Nat → Nat → Nat
  | 0, _, st => st
  | fuel + 1, mask, st => if mask ≤ 1 then st else hbLoop fuel (mask / 2) (st + 1)

/-- Bit index of the first candidate stage: `0` when the bitmap is empty,
otherwise one above the highest set bit. -/
def stageStartIdx (mask : Nat) : Nat :=
  if mask = 0 then 0 else hbLoop mask mask 1

/-- The candidate-walking recursion of `rspamd_task_select_processing_stage`.
The first component of the result is the updated `processed_stages` bitmap
(the C function marks unrequested candidates done in place), the second the
selected stage bit.  `fuel = 12` always suffices (proved below). -/
def selLoop (stages : Nat) : Nat → Nat → Nat × Nat
  | 0, done => (done, RSPAMD_TASK_STAGE_DONE)
  | fuel + 1, done =>
    if stages &&& (1 <<< stageStartIdx done) ≠ 0 then
      (done, 1 <<< stageStartIdx done)
    else if 1 <<< stageStartIdx done < RSPAMD_TASK_STAGE_DONE then
      selLoop stages fuel (done ||| (1 <<< stageStartIdx done))
    else
      (done, RSPAMD_TASK_STAGE_DONE)

/-- `rspamd_task_select_processing_stage (task, stages)`: takes
`task->processed_stages` and the requested mask, returns the updated bitmap
together with the selected stage bit. -/
def rspamd_task_select_processing_stage (done stages : Nat) : Nat × Nat :=
  selLoop stages 12 done

/-- Modelled from the spec (claim C1 wording): the lowest bit index in
`[s, 11)` that is a member of `req`, or `11` (the `DONE` index) when there is
none.  Used as the specification-side characterisation of the selector. -/
def lowestReqAux (req : Nat) : Nat → Nat → Nat
  | 0, s => s
  | n + 1, s => if req.testBit s then s else lowestReqAux req n (s + 1)

/-- Modelled from the spec (claim C1 wording): wrapper of `lowestReqAux`
starting the search at index `s` and capping at the `DONE` index `11`. -/
def lowestRequestedFrom (req s : Nat) : Nat :=
  if 11 ≤ s then 11 else lowestReqAux req (11 - s) s

/-! #### Lemmas about the highest-bit loop -/

theorem hbLoop_spec : ∀ (s m st fuel : Nat), m ≤ fuel → 2 ^ s ≤ m → m < 2 ^ (s + 1) →
    hbLoop fuel m st = s + st := by
  intro s
  induction s with
  | zero =>
    intro m st fuel hf h1 h2
    have hm : m = 1 := by omega
    subst hm
    cases fuel with
    | zero => omega
    | succ fuel => simp [hbLoop]
  | succ s ih =>
    intro m st fuel hf h1 h2
    have hm2 : 2 ≤ m := le_trans (by
      calc (2 : Nat) = 2 ^ 1 := rfl
      _ ≤ 2 ^ (s + 1) := Nat.pow_le_pow_right (by norm_num) (by omega)) h1
    cases fuel with
    | zero => omega
    | succ fuel =>
      have hnle : ¬ m ≤ 1 := by omega
      rw [hbLoop, if_neg hnle]
      have hlow : 2 ^ s ≤ m / 2 := by
        rw [Nat.le_div_iff_mul_le (by norm_num)]
        calc 2 ^ s * 2 = 2 ^ (s + 1) := (pow_succ 2 s).symm
        _ ≤ m := h1
      have hhigh : m / 2 < 2 ^ (s + 1) := by
        rw [Nat.div_lt_iff_lt_mul (by norm_num)]
        calc m < 2 ^ (s + 1 + 1) := h2
        _ = 2 ^ (s + 1) * 2 := pow_succ 2 (s + 1)
      have hfuel : m / 2 ≤ fuel := by
        have := Nat.div_lt_self (by omega : 0 < m) (by norm_num : 1 < 2)
        omega
      rw [ih (m / 2) (st + 1) fuel hfuel hlow hhigh]
      omega

theorem stageStartIdx_spec (s m : Nat) (h1 : 2 ^ s ≤ m) (h2 : m < 2 ^ (s + 1)) :
    stageStartIdx m = s + 1 := by
  have hm : m ≠ 0 := by have := Nat.one_le_two_pow (n := s); omega
  rw [stageStartIdx, if_neg hm, hbLoop_spec s m 1 m le_rfl h1 h2]

theorem stageStartIdx_lt (m : Nat) : m < 2 ^ stageStartIdx m := by
  by_cases hm : m = 0
  · subst hm; simp [stageStartIdx]
  · rw [stageStartIdx_spec m.log2 m (Nat.log2_self_le hm) Nat.lt_log2_self]
    exact Nat.lt_log2_self

theorem stageStartIdx_le_eleven (m : Nat) (h : m < 2 ^ 11) : stageStartIdx m ≤ 11 := by
  by_cases hm : m = 0
  · subst hm; simp [stageStartIdx]
  · rw [stageStartIdx_spec m.log2 m (Nat.log2_self_le hm) Nat.lt_log2_self]
    have := (Nat.log2_lt hm).mpr h
    omega

/-! #### Lemmas about the spec-side lowest-requested-bit function -/

theorem lowestReqAux_ge (req : Nat) : ∀ n s, s ≤ lowestReqAux req n s := by
  intro n
  induction n with
  | zero => intro s; simp [lowestReqAux]
  | succ n ih =>
    intro s
    rw [lowestReqAux]
    split
    · exact le_rfl
    · exact le_trans (Nat.le_succ s) (ih (s + 1))

theorem lowestReqAux_le (req : Nat) : ∀ n s, lowestReqAux req n s ≤ s + n := by
  intro n
  induction n with
  | zero => intro s; simp [lowestReqAux]
  | succ n ih =>
    intro s
    rw [lowestReqAux]
    split
    · omega
    · have := ih (s + 1); omega

theorem lowestReqAux_mem (req : Nat) : ∀ n s, lowestReqAux req n s < s + n →
    req.testBit (lowestReqAux req n s) = true := by
  intro n
  induction n with
  | zero =>
    intro s h
    have e : lowestReqAux req 0 s = s := rfl
    omega
  | succ n ih =>
    intro s h
    rw [lowestReqAux] at h ⊢
    by_cases hbit : req.testBit s = true
    · rw [if_pos hbit] at h ⊢
      exact hbit
    · rw [if_neg hbit] at h ⊢
      exact ih (s + 1) (by omega)

theorem lowestReqAux_below (req : Nat) : ∀ n s j, s ≤ j → j < lowestReqAux req n s →
    req.testBit j = false := by
  intro n
  induction n with
  | zero =>
    intro s j h1 h2
    have e : lowestReqAux req 0 s = s := rfl
    rw [e] at h2
    exact absurd (lt_of_le_of_lt h1 h2) (lt_irrefl s)
  | succ n ih =>
    intro s j h1 h2
    rw [lowestReqAux] at h2
    by_cases hbit : req.testBit s = true
    · rw [if_pos hbit] at h2
      exact absurd (lt_of_le_of_lt h1 h2) (lt_irrefl s)
    · rw [if_neg hbit] at h2
      rcases Nat.eq_or_lt_of_le h1 with rfl | hlt
      · simpa using hbit
      · exact ih (s + 1) j hlt h2

theorem lowestRequestedFrom_eq_aux (req s : Nat) (hs : s ≤ 11) :
    lowestRequestedFrom req s = lowestReqAux req (11 - s) s := by
  rw [lowestRequestedFrom]
  rcases Nat.eq_or_lt_of_le hs with rfl | hlt
  · simp [lowestReqAux]
  · rw [if_neg (by omega)]

theorem lowestRequestedFrom_ge (req s : Nat) (hs : s ≤ 11) :
    s ≤ lowestRequestedFrom req s := by
  rw [lowestRequestedFrom_eq_aux req s hs]; exact lowestReqAux_ge req _ s

theorem lowestRequestedFrom_le (req s : Nat) (hs : s ≤ 11) :
    lowestRequestedFrom req s ≤ 11 := by
  rw [lowestRequestedFrom_eq_aux req s hs]
  have := lowestReqAux_le req (11 - s) s
  omega

theorem lowestRequestedFrom_mem (req s : Nat) (hs : s ≤ 11)
    (h : lowestRequestedFrom req s < 11) :
    req.testBit (lowestRequestedFrom req s) = true := by
  rw [lowestRequestedFrom_eq_aux req s hs] at h ⊢
  exact lowestReqAux_mem req (11 - s) s (by omega)

theorem lowestRequestedFrom_below (req s : Nat) (hs : s ≤ 11) :
    ∀ j, s ≤ j → j < lowestRequestedFrom req s → req.testBit j = false := by
  intro j h1 h2
  rw [lowestRequestedFrom_eq_aux req s hs] at h2
  exact lowestReqAux_below req (11 - s) s j h1 h2

theorem lowestRequestedFrom_bit (req s : Nat) (hs : s ≤ 11)
    (h : req.testBit s = true) : lowestRequestedFrom req s = s := by
  rw [lowestRequestedFrom_eq_aux req s hs]
  rcases Nat.eq_or_lt_of_le hs with rfl | hlt
  · simp [lowestReqAux]
  · have : 11 - s = (11 - s - 1) + 1 := by omega
    rw [this, lowestReqAux, if_pos h]

theorem lowestRequestedFrom_step (req s : Nat) (hs : s < 11)
    (h : req.testBit s = false) :
    lowestRequestedFrom req s = lowestRequestedFrom req (s + 1) := by
  rw [lowestRequestedFrom_eq_aux req s (by omega),
    lowestRequestedFrom_eq_aux req (s + 1) (by omega)]
  have h1 : 11 - s = (11 - (s + 1)) + 1 := by omega
  rw [h1, lowestReqAux, if_neg (by simp [h])]

/-! #### Auxiliary bit-twiddling facts -/

theorem and_two_pow_ne_zero (req i : Nat) :
    req &&& 2 ^ i ≠ 0 ↔ req.testBit i = true := by
  rw [Nat.and_two_pow]
  cases h : req.testBit i <;> simp [h]

theorem le_or_two_pow (m i : Nat) : 2 ^ i ≤ m ||| 2 ^ i := by
  have h : (m ||| 2 ^ i) &&& 2 ^ i = 2 ^ i := by
    apply Nat.eq_of_testBit_eq
    intro j
    rcases eq_or_ne i j with rfl | hne
    · simp [Nat.testBit_and, Nat.testBit_or, Nat.testBit_two_pow_self]
    · simp [Nat.testBit_and, Nat.testBit_two_pow_of_ne hne]
  calc 2 ^ i = (m ||| 2 ^ i) &&& 2 ^ i := h.symm
  _ ≤ m ||| 2 ^ i := Nat.and_le_left

/-! #### Correctness of the selector loop -/

theorem selLoop_spec (req : Nat) : ∀ (fuel s done : Nat), stageStartIdx done = s →
    done < 2 ^ s → s ≤ 11 → 12 - s ≤ fuel →
    (selLoop req fuel done).2 = 2 ^ lowestRequestedFrom req s ∧
    ∀ j, ((selLoop req fuel done).1.testBit j = true ↔
      (done.testBit j = true ∨ (s ≤ j ∧ j < lowestRequestedFrom req s))) := by
  intro fuel
  induction fuel with
  | zero => intro s done _ _ hs hf; omega
  | succ fuel ih =>
    intro s done hstart hlt hs hf
    rw [selLoop, hstart, Nat.one_shiftLeft]
    by_cases hbit : req.testBit s = true
    · rw [if_pos ((and_two_pow_ne_zero req s).mpr hbit)]
      rw [lowestRequestedFrom_bit req s hs hbit]
      refine ⟨rfl, fun j => ⟨fun h => Or.inl h, fun h => ?_⟩⟩
      rcases h with h | ⟨h1, h2⟩
      · exact h
      · exact absurd h2 (by omega)
    · replace hbit : req.testBit s = false := by simpa using hbit
      rw [if_neg (by simp [and_two_pow_ne_zero, hbit])]
      by_cases hcap : (2 : Nat) ^ s < RSPAMD_TASK_STAGE_DONE
      · rw [if_pos hcap]
        have hs11 : s < 11 := by
          have : (2 : Nat) ^ s < 2 ^ 11 := by
            simpa [RSPAMD_TASK_STAGE_DONE, Nat.one_shiftLeft] using hcap
          exact (Nat.pow_lt_pow_iff_right (by norm_num)).mp this
        have hle : 2 ^ s ≤ done ||| 2 ^ s := le_or_two_pow done s
        have hlt2 : done ||| 2 ^ s < 2 ^ (s + 1) :=
          Nat.or_lt_two_pow (lt_trans hlt (Nat.pow_lt_pow_succ (by norm_num)))
            (Nat.pow_lt_pow_succ (by norm_num))
        have hstart2 : stageStartIdx (done ||| 2 ^ s) = s + 1 :=
          stageStartIdx_spec s _ hle hlt2
        obtain ⟨ha, hb⟩ := ih (s + 1) (done ||| 2 ^ s) hstart2 hlt2 (by omega) (by omega)
        have hkeq : lowestRequestedFrom req s = lowestRequestedFrom req (s + 1) :=
          lowestRequestedFrom_step req s hs11 hbit
        have hkge : s + 1 ≤ lowestRequestedFrom req (s + 1) :=
          lowestRequestedFrom_ge req (s + 1) (by omega)
        refine ⟨by rw [ha, hkeq], fun j => ?_⟩
        rw [hb j]
        rw [hkeq]
        constructor
        · intro h
          rcases h with h | h
          · rw [Nat.testBit_or] at h
            rcases Bool.or_eq_true_iff.mp h with h | h
            · exact Or.inl h
            · rw [Nat.testBit_two_pow] at h
              have : s = j := by simpa using h
              omega
          · exact Or.inr ⟨by omega, h.2⟩
        · intro h
          rcases h with h | ⟨h1, h2⟩
          · exact Or.inl (by rw [Nat.testBit_or, h]; simp)
          · rcases Nat.eq_or_lt_of_le h1 with rfl | hgt
            · exact Or.inl (by rw [Nat.testBit_or, Nat.testBit_two_pow]; simp)
            · exact Or.inr ⟨by omega, h2⟩
      · rw [if_neg hcap]
        have hs11 : s = 11 := by
          have : (2 : Nat) ^ 11 ≤ 2 ^ s := by
            simpa [RSPAMD_TASK_STAGE_DONE, Nat.one_shiftLeft] using hcap
          have := (Nat.pow_le_pow_iff_right (by norm_num : 1 < 2)).mp this
          omega
        subst hs11
        have hk : lowestRequestedFrom req 11 = 11 := by
          rw [lowestRequestedFrom]; simp
        rw [hk]
        refine ⟨by simp [RSPAMD_TASK_STAGE_DONE, Nat.one_shiftLeft], fun j => ?_⟩
        constructor
        · intro h
          exact Or.inl h
        · intro h
          rcases h with h | ⟨h1, h2⟩
          · exact h
          · exact absurd h2 (by omega)

/-- C1: `rspamd_task_select_processing_stage` returns the stage bit
`2 ^ k` where `k` is the lowest bit index that is a member of the requested
mask and lies strictly above every bit set in `done` (at the first stage when
`done = 0`), with `k = 11` — the `DONE` bit — when no such requested bit
exists below `DONE`; and the updated bitmap marks done exactly the skipped
candidate indices `[stageStartIdx done, k)`, all of which are not members of
the requested mask.  `done < 2 ^ 11` states that the terminal bit is not yet
set, which holds at every call site (`rspamd_task_process` returns before
selecting once the task is processed). -/
theorem c1_stage_selector (done req : Nat) (hd : done < 2 ^ 11) :
    stageStartIdx done ≤ lowestRequestedFrom req (stageStartIdx done) ∧
    lowestRequestedFrom req (stageStartIdx done) ≤ 11 ∧
    (lowestRequestedFrom req (stageStartIdx done) < 11 →
      req.testBit (lowestRequestedFrom req (stageStartIdx done)) = true) ∧
    (∀ j, stageStartIdx done ≤ j → j < lowestRequestedFrom req (stageStartIdx done) →
      req.testBit j = false) ∧
    (rspamd_task_select_processing_stage done req).2 =
      2 ^ lowestRequestedFrom req (stageStartIdx done) ∧
    (∀ j, ((rspamd_task_select_processing_stage done req).1.testBit j = true ↔
      (done.testBit j = true ∨
        (stageStartIdx done ≤ j ∧ j < lowestRequestedFrom req (stageStartIdx done))))) := by
  have hs : stageStartIdx done ≤ 11 := stageStartIdx_le_eleven done hd
  obtain ⟨ha, hb⟩ := selLoop_spec req 12 (stageStartIdx done) done rfl
    (stageStartIdx_lt done) hs (by omega)
  exact ⟨lowestRequestedFrom_ge req _ hs, lowestRequestedFrom_le req _ hs,
    lowestRequestedFrom_mem req _ hs, lowestRequestedFrom_below req _ hs, ha, hb⟩

/-- Witness for `c1_stage_selector`: `done = 5` (stages 0 and 2 done),
`req = 64` (only `COMPOSITES` requested); the selector reports bit 6 and the
intervening candidates 3, 4, 5 become marked. -/
theorem c1_stage_selector_witness :
    (5 : Nat) < 2 ^ 11 ∧
    (rspamd_task_select_processing_stage 5 64).2 =
      2 ^ lowestRequestedFrom 64 (stageStartIdx 5) ∧
    ((rspamd_task_select_processing_stage 5 64).1.testBit 4 = true ↔
      (Nat.testBit 5 4 = true ∨
        (stageStartIdx 5 ≤ 4 ∧ 4 < lowestRequestedFrom 64 (stageStartIdx 5)))) :=
  ⟨by decide, (c1_stage_selector 5 64 (by decide)).2.2.2.2.1,
    (c1_stage_selector 5 64 (by decide)).2.2.2.2.2 4⟩

/-! ### Data model

`struct rspamd_task` restricted to the fields the covered functions read or
write.  The C flag bitfield (`RSPAMD_TASK_FLAG_*`) becomes a record of
independent booleans; raw pointers into message bytes become a `ByteWin`
(backing buffer, offset, length); `GError` becomes `GErr`. -/

structure TaskFlags where
  processing : Bool
  skipped : Bool
  empty : Bool
  has_control : Bool
  file : Bool
  mime : Bool
  json : Bool
  no_log : Bool
  pass_all : Bool
  learn_spam : Bool
  learn_ham : Bool
  learn_auto : Bool
  deriving DecidableEq

structure GErr where
  domain : String
  code : Nat
  message : String
  deriving DecidableEq

structure ByteWin where
  buf : String
  off : Nat
  len : Nat
  deriving DecidableEq

/-- `struct rspamd_inet_addr` abstracted to its validity and rendered form. -/
structure RAddr where
  valid : Bool
  str : String
  deriving DecidableEq

/-- `struct symbol`: a name, a score and an ordered option list.  Scores are
`gdouble` in C, idealised as `ℚ` here; `name` is non-null for every symbol
stored in a metric result (it is the hash key). -/
structure Symb where
  name : String
  score : ℚ
  options : List String
  deriving DecidableEq

/-- `struct metric_result` restricted to what the log formatter reads:
total score, chosen action, the REJECT threshold from `actions_limits`, and
the symbol map in hash-iteration order. -/
structure MetricResult where
  score : ℚ
  action : Nat
  reject_limit : ℚ
  symbols : List Symb
  deriving DecidableEq

structure TaskState where
  flags : TaskFlags
  processed_stages : Nat
  pre_result_action : Nat
  err : Option GErr
  checkpoint : Option Nat
  request_headers : List (String × String)
  msg : ByteWin
  message_len : Nat
  message_id : Option String
  queue_id : Option String
  user : Option String
  deliver_to : Option String
  from_envelope : Option String
  rcpt_envelope : Option (List (Option String))
  from_mime : Option (List (Option String))
  rcpt_mime : Option (List (Option String))
  from_addr : Option RAddr
  dns_requests : Nat
  results : List (String × MetricResult)
  pool_vars : List (String × String)
  deriving DecidableEq

/-- `rspamd_task_new` (fields relevant here): MIME and JSON flags set,
`pre_result.action = METRIC_ACTION_MAX`, ids `"undef"`, everything else
empty. -/
def rspamd_task_new : TaskState where
  flags := ⟨false, false, false, false, false, true, true, false, false,
    false, false, false⟩
  processed_stages := 0
  pre_result_action := METRIC_ACTION_MAX
  err := none
  checkpoint := none
  request_headers := []
  msg := ⟨"", 0, 0⟩
  message_len := 0
  message_id := some "undef"
  queue_id := some "undef"
  user := none
  deliver_to := none
  from_envelope := none
  rcpt_envelope := none
  from_mime := none
  rcpt_mime := none
  from_addr := none
  dns_requests := 0
  results := []
  pool_vars := []

/-- ASCII lowercasing (`g_ascii_tolower`), written so that it reduces in the
kernel. -/
def asciiLower (c : Char) : Char :=
  if 'A' ≤ c ∧ c ≤ 'Z' then Char.ofNat (c.toNat + 32) else c

/-- ASCII-lowercase a whole string (`rspamd_str_lc`). -/
def asciiLowerStr (s : String) : String := ⟨s.data.map asciiLower⟩

/-- Case-insensitive association lookup, modelling the
`rspamd_ftok_icase_hash` request-header table. -/
def lookupHeaderI : List (String × String) → String → Option String
  | [], _ => none
  | (k, v) :: rest, key =>
    if asciiLowerStr k = asciiLowerStr key then some v else lookupHeaderI rest key

/-- Unsigned decimal parsing, modelling `rspamd_strtoul` (which writes its
result only after a fully successful parse). -/
def parseDecAux : List Char → Nat → Option Nat
  | [], acc => some acc
  | c :: cs, acc =>
    if '0' ≤ c ∧ c ≤ '9' then parseDecAux cs (acc * 10 + (c.toNat - 48)) else none

def parseDec (s : String) : Option Nat :=
  match s.data with
  | [] => none
  | l => parseDecAux l 0

/-- Case-sensitive association lookup (`rspamd_str_hash` tables and mempool
variables). -/
def lookupExact {α : Type} : List (String × α) → String → Option α
  | [], _ => none
  | (k, v) :: rest, key => if k = key then some v else lookupExact rest key

/-- `g_set_error` semantics: assigns only when no error is recorded yet. -/
def gSetError (cur : Option GErr) (e : GErr) : Option GErr :=
  match cur with
  | some old => some old
  | none => some e

/-- `RSPAMD_TASK_IS_PROCESSED`: `processed_stages & RSPAMD_TASK_STAGE_DONE`. -/
def RSPAMD_TASK_IS_PROCESSED (t : TaskState) : Prop :=
  t.processed_stages &&& RSPAMD_TASK_STAGE_DONE ≠ 0

instance (t : TaskState) : Decidable (RSPAMD_TASK_IS_PROCESSED t) := by
  unfold RSPAMD_TASK_IS_PROCESSED
  infer_instance

/-! ### Pipeline engine (`rspamd_task_process`)

The external stage handlers (message parser, lua filter hosts, rules engine,
classifier, composites, learner) and the session's pending-events query are
not part of the covered source; they are an explicit environment of
state-transformers.  `rspamd_stat_learn` additionally reports success and, on
failure, the `GError` it stored in `stat_error`. -/

structure ProcEnv where
  message_parse : TaskState → TaskState × Bool
  pre_filters : TaskState → TaskState
  process_filters : TaskState → TaskState × Bool
  stat_classify : TaskState → Nat → TaskState
  make_composites : TaskState → TaskState
  post_filters : TaskState → TaskState
  check_autolearn : TaskState → TaskState
  stat_learn : TaskState → Bool → Nat → TaskState × Bool × GErr
  events_pending : TaskState → Nat

/-- The `switch (st)` dispatch of `rspamd_task_process`.  Returns the mutated
task, the `ret` flag, and the list of stages whose external handler was
actually invoked (used to state "no stage handler runs"). -/
def rspamd_task_dispatch_stage (env : ProcEnv) (t : TaskState) (st : Nat) :
    TaskState × Bool × List Nat :=
  if st = RSPAMD_TASK_STAGE_READ_MESSAGE then
    let r := env.message_parse t
    (r.1, r.2, [st])
  else if st = RSPAMD_TASK_STAGE_PRE_FILTERS then
    (env.pre_filters t, true, [st])
  else if st = RSPAMD_TASK_STAGE_FILTERS then
    let r := env.process_filters t
    (r.1, r.2, [st])
  else if st = RSPAMD_TASK_STAGE_CLASSIFIERS ∨ st = RSPAMD_TASK_STAGE_CLASSIFIERS_PRE ∨
      st = RSPAMD_TASK_STAGE_CLASSIFIERS_POST then
    if t.flags.empty then (t, true, [])
    else (env.stat_classify t st, true, [st])
  else if st = RSPAMD_TASK_STAGE_COMPOSITES then
    (env.make_composites t, true, [st])
  else if st = RSPAMD_TASK_STAGE_POST_FILTERS then
    let t1 := env.post_filters t
    if t1.flags.learn_auto ∧ ¬ t1.flags.empty then (env.check_autolearn t1, true, [st])
    else (t1, true, [st])
  else if st = RSPAMD_TASK_STAGE_LEARN ∨ st = RSPAMD_TASK_STAGE_LEARN_PRE ∨
      st = RSPAMD_TASK_STAGE_LEARN_POST then
    if t.flags.learn_spam ∨ t.flags.learn_ham then
      if t.err = none then
        let r := env.stat_learn t t.flags.learn_spam st
        if r.2.1 then (r.1, true, [st])
        else
          let t1 := if r.1.flags.learn_auto then r.1 else { r.1 with err := some r.2.2 }
          ({ t1 with processed_stages := t1.processed_stages ||| RSPAMD_TASK_STAGE_DONE },
            true, [st])
      else (t, true, [])
    else (t, true, [])
  else if st = RSPAMD_TASK_STAGE_DONE then
    ({ t with processed_stages := t.processed_stages ||| RSPAMD_TASK_STAGE_DONE }, true, [])
  else
    (t, true, [])

/-- `rspamd_task_process (task, stages)`.  The tail recursion of the C code
(re-entered after a completed stage when the session has no pending events)
is bounded by the twelve stage bits; it is rendered with an explicit fuel
counter (`12` always suffices for well-formed states).  The third component
accumulates the invoked-handler trace of `rspamd_task_dispatch_stage`. -/
def rspamd_task_process (env : ProcEnv) : Nat → TaskState → Nat → TaskState × Bool × List Nat
  | 0, t, _ => (t, true, [])
  | fuel + 1, t, stages =>
    if t.flags.processing then (t, true, [])
    else if RSPAMD_TASK_IS_PROCESSED t then (t, true, [])
    else if t.pre_result_action ≠ METRIC_ACTION_MAX then
      ({ t with processed_stages := t.processed_stages ||| RSPAMD_TASK_STAGE_DONE }, true, [])
    else
      let t1 : TaskState := { t with flags := { t.flags with processing := true } }
      let sel := rspamd_task_select_processing_stage t1.processed_stages stages
      let t2 : TaskState := { t1 with processed_stages := sel.1 }
      let d := rspamd_task_dispatch_stage env t2 sel.2
      let t3 := d.1
      let ret := d.2.1
      let t4 : TaskState :=
        if t3.flags.skipped then
          { t3 with processed_stages := t3.processed_stages ||| RSPAMD_TASK_STAGE_DONE }
        else t3
      let t5 : TaskState := { t4 with flags := { t4.flags with processing := false } }
      if ret = false ∨ RSPAMD_TASK_IS_PROCESSED t5 then
        (if ret = false then
          { t5 with processed_stages := t5.processed_stages ||| RSPAMD_TASK_STAGE_DONE }
        else t5, ret, d.2.2)
      else if env.events_pending t5 ≠ 0 then (t5, ret, d.2.2)
      else
        let t6 : TaskState :=
          { t5 with processed_stages := t5.processed_stages ||| sel.2, checkpoint := none }
        let r := rspamd_task_process env fuel t6 stages
        (r.1, r.2.1, d.2.2 ++ r.2.2)

/-- A trivial environment whose handlers do nothing; used by concrete
witnesses. -/
def trivialProcEnv : ProcEnv where
  message_parse := fun t => (t, true)
  pre_filters := id
  process_filters := fun t => (t, true)
  stat_classify := fun t _ => t
  make_composites := id
  post_filters := id
  check_autolearn := id
  stat_learn := fun t _ _ => (t, true, ⟨"stat", 0, ""⟩)
  events_pending := fun _ => 0

theorem or_done_is_processed (a : Nat) :
    (a ||| RSPAMD_TASK_STAGE_DONE) &&& RSPAMD_TASK_STAGE_DONE ≠ 0 := by
  have h : RSPAMD_TASK_STAGE_DONE = 2 ^ 11 := by
    rw [RSPAMD_TASK_STAGE_DONE, Nat.one_shiftLeft]
  rw [h, and_two_pow_ne_zero, Nat.testBit_or, Nat.testBit_two_pow_self, Bool.or_true]

/-- C2: if `pre_result.action` is not the `METRIC_ACTION_MAX` sentinel when
`rspamd_task_process` is entered (a genuine entry: the task neither carries
the in-progress flag of a nested call nor is already terminal), then the call
only ORs the `DONE` bit into `processed_stages`, invokes no stage handler
(empty trace), returns success, and leaves every other field — in particular
`err` — unchanged. -/
theorem c2_pre_result_short_circuit (env : ProcEnv) (t : TaskState) (stages fuel : Nat)
    (hf : 0 < fuel)
    (hproc : t.flags.processing = false)
    (hdone : t.processed_stages &&& RSPAMD_TASK_STAGE_DONE = 0)
    (hpre : t.pre_result_action ≠ METRIC_ACTION_MAX) :
    rspamd_task_process env fuel t stages =
      ({ t with processed_stages := t.processed_stages ||| RSPAMD_TASK_STAGE_DONE },
        true, []) := by
  cases fuel with
  | zero => omega
  | succ fuel =>
    rw [rspamd_task_process, if_neg (by simp [hproc]),
      if_neg (by simp [RSPAMD_TASK_IS_PROCESSED, hdone]), if_pos hpre]

/-- Witness for `c2_pre_result_short_circuit`: a freshly created task with a
forced `REJECT` pre-result. -/
theorem c2_pre_result_short_circuit_witness :
    ((0 : Nat) < 1 ∧
      ({ rspamd_task_new with
          pre_result_action := METRIC_ACTION_REJECT } : TaskState).flags.processing = false) ∧
    rspamd_task_process trivialProcEnv 1
        { rspamd_task_new with pre_result_action := METRIC_ACTION_REJECT }
        RSPAMD_TASK_PROCESS_ALL =
      ({ { rspamd_task_new with pre_result_action := METRIC_ACTION_REJECT } with
          processed_stages :=
            ({ rspamd_task_new with
                pre_result_action := METRIC_ACTION_REJECT } : TaskState).processed_stages |||
              RSPAMD_TASK_STAGE_DONE }, true, []) :=
  ⟨⟨by decide, by decide⟩,
    c2_pre_result_short_circuit trivialProcEnv
      { rspamd_task_new with pre_result_action := METRIC_ACTION_REJECT }
      RSPAMD_TASK_PROCESS_ALL 1 (by decide) (by decide) (by decide) (by decide)⟩

theorem dispatch_learn_fail (env : ProcEnv) (t ta : TaskState) (e : GErr) (st : Nat)
    (hst : st = RSPAMD_TASK_STAGE_LEARN_PRE ∨ st = RSPAMD_TASK_STAGE_LEARN ∨
      st = RSPAMD_TASK_STAGE_LEARN_POST)
    (hlearn : t.flags.learn_spam = true ∨ t.flags.learn_ham = true)
    (herr : t.err = none)
    (hcall : env.stat_learn t t.flags.learn_spam st = (ta, false, e)) :
    rspamd_task_dispatch_stage env t st =
      (let tb := if ta.flags.learn_auto then ta else { ta with err := some e }
       ({ tb with processed_stages := tb.processed_stages ||| RSPAMD_TASK_STAGE_DONE },
         true, [st])) := by
  rcases hst with rfl | rfl | rfl <;>
    · rw [rspamd_task_dispatch_stage, if_neg (by decide), if_neg (by decide),
        if_neg (by decide), if_neg (by decide), if_neg (by decide), if_neg (by decide),
        if_pos (by decide), if_pos hlearn, if_pos herr]
      simp [hcall]

/-- C8: in a LEARN stage (selector yields one of the three learn bits) with
learn-spam or learn-ham set and no prior error, a failing learner invocation
records the learner error in `task->err` exactly when the learn-auto flag is
not set, and the `DONE` bit ends up set in `processed_stages` in either case;
the call returns success having invoked only the learn-stage handler.
`ta`/`e` name the task state and `GError` produced by `rspamd_stat_learn`,
which is required to leave the flag word and the `err` slot alone (the real
learner reports its error through the out-parameter only). -/
theorem c8_learn_error_handling (env : ProcEnv) (t ta : TaskState) (e : GErr)
    (stages fuel d0 st : Nat) (hf : 0 < fuel)
    (hproc : t.flags.processing = false)
    (hdone : t.processed_stages &&& RSPAMD_TASK_STAGE_DONE = 0)
    (hpre : t.pre_result_action = METRIC_ACTION_MAX)
    (hsel : rspamd_task_select_processing_stage t.processed_stages stages = (d0, st))
    (hst : st = RSPAMD_TASK_STAGE_LEARN_PRE ∨ st = RSPAMD_TASK_STAGE_LEARN ∨
      st = RSPAMD_TASK_STAGE_LEARN_POST)
    (hlearn : t.flags.learn_spam = true ∨ t.flags.learn_ham = true)
    (herr : t.err = none)
    (hcall : env.stat_learn
      { t with flags := { t.flags with processing := true }, processed_stages := d0 }
      t.flags.learn_spam st = (ta, false, e))
    (hfl : ta.flags = { t.flags with processing := true })
    (hkeep : ta.err = none) :
    (rspamd_task_process env fuel t stages).1.err =
      (if t.flags.learn_auto then none else some e) ∧
    RSPAMD_TASK_IS_PROCESSED (rspamd_task_process env fuel t stages).1 ∧
    (rspamd_task_process env fuel t stages).2.1 = true ∧
    (rspamd_task_process env fuel t stages).2.2 = [st] := by
  cases fuel with
  | zero => omega
  | succ fuel =>
    rw [rspamd_task_process, if_neg (by simp [hproc]),
      if_neg (by simp [RSPAMD_TASK_IS_PROCESSED, hdone]), if_neg (by simp [hpre])]
    simp only [hsel]
    rw [dispatch_learn_fail env _ ta e st hst (by simpa using hlearn) (by simpa using herr)
      (by simpa using hcall)]
    by_cases hauto : ta.flags.learn_auto = true
    · simp only [hauto, if_pos rfl, if_true]
      have hskip : ta.flags.skipped = t.flags.skipped := by rw [hfl]
      have hauto' : t.flags.learn_auto = true := by rw [hfl] at hauto; exact hauto
      by_cases hsk : ta.flags.skipped = true
      · simp only [hsk, if_true, if_pos rfl]
        rw [if_pos (Or.inr (by
          simp only [RSPAMD_TASK_IS_PROCESSED]
          exact or_done_is_processed _))]
        refine ⟨?_, ?_, rfl, rfl⟩
        · simp [hkeep, hauto']
        · simp only [RSPAMD_TASK_IS_PROCESSED]
          rw [if_neg (by simp)]
          exact or_done_is_processed _
      · simp only [Bool.not_eq_true] at hsk
        simp only [hsk, Bool.false_eq_true, if_false]
        rw [if_pos (Or.inr (by
          simp only [RSPAMD_TASK_IS_PROCESSED]
          exact or_done_is_processed _))]
        refine ⟨?_, ?_, rfl, rfl⟩
        · simp [hkeep, hauto']
        · simp only [RSPAMD_TASK_IS_PROCESSED]
          rw [if_neg (by simp)]
          exact or_done_is_processed _
    · simp only [Bool.not_eq_true] at hauto
      simp only [hauto, Bool.false_eq_true, if_false]
      have hauto' : t.flags.learn_auto = false := by rw [hfl] at hauto; exact hauto
      by_cases hsk : ta.flags.skipped = true
      · simp only [hsk, if_true, if_pos rfl]
        rw [if_pos (Or.inr (by
          simp only [RSPAMD_TASK_IS_PROCESSED]
          exact or_done_is_processed _))]
        refine ⟨?_, ?_, rfl, rfl⟩
        · simp [hauto']
        · simp only [RSPAMD_TASK_IS_PROCESSED]
          rw [if_neg (by simp)]
          exact or_done_is_processed _
      · simp only [Bool.not_eq_true] at hsk
        simp only [hsk, Bool.false_eq_true, if_false]
        rw [if_pos (Or.inr (by
          simp only [RSPAMD_TASK_IS_PROCESSED]
          exact or_done_is_processed _))]
        refine ⟨?_, ?_, rfl, rfl⟩
        · simp [hauto']
        · simp only [RSPAMD_TASK_IS_PROCESSED]
          rw [if_neg (by simp)]
          exact or_done_is_processed _

/-- Environment whose learner always fails with a fixed error. -/
def envLearnFail : ProcEnv :=
  { trivialProcEnv with stat_learn := fun t _ _ => (t, false, ⟨"stat", 2, "learn failed"⟩) }

/-- A task that has completed the first eight stages and carries the
learn-spam flag, so that the selector picks `LEARN_PRE`. -/
def taskLearn : TaskState :=
  { rspamd_task_new with
    processed_stages := 255,
    flags := { rspamd_task_new.flags with learn_spam := true } }

/-- `taskLearn` as seen by the learn-stage handler (in-progress flag set,
selector-updated bitmap). -/
def taskLearnIn : TaskState :=
  { taskLearn with
    flags := { taskLearn.flags with processing := true },
    processed_stages := 255 }

def learnErr : GErr := ⟨"stat", 2, "learn failed"⟩

/-- Witness for `c8_learn_error_handling`: concrete failing learner, learn-auto
clear, so the error lands in `err` and the task becomes terminal. -/
theorem c8_learn_error_handling_witness :
    rspamd_task_select_processing_stage taskLearn.processed_stages RSPAMD_TASK_PROCESS_ALL =
      (255, RSPAMD_TASK_STAGE_LEARN_PRE) ∧
    ((rspamd_task_process envLearnFail 1 taskLearn RSPAMD_TASK_PROCESS_ALL).1.err =
      (if taskLearn.flags.learn_auto then none else some learnErr) ∧
    RSPAMD_TASK_IS_PROCESSED
      (rspamd_task_process envLearnFail 1 taskLearn RSPAMD_TASK_PROCESS_ALL).1 ∧
    (rspamd_task_process envLearnFail 1 taskLearn RSPAMD_TASK_PROCESS_ALL).2.1 = true ∧
    (rspamd_task_process envLearnFail 1 taskLearn RSPAMD_TASK_PROCESS_ALL).2.2 =
      [RSPAMD_TASK_STAGE_LEARN_PRE]) :=
  ⟨by decide,
    c8_learn_error_handling envLearnFail taskLearn taskLearnIn learnErr
      RSPAMD_TASK_PROCESS_ALL 1 255 RSPAMD_TASK_STAGE_LEARN_PRE
      (by decide) (by decide) (by decide) (by decide) (by decide) (by decide)
      (by decide) (by decide) (by decide) (by decide) (by decide)⟩

/-! ### Log formatter: variable output and address-list rendering -/

/-- The `$`-substitution loop of `rspamd_task_log_write_var`: every `$` in
the content template is replaced by the variable value, other characters are
copied verbatim. -/
def substDollar (c var : String) : String :=
  c.foldl (fun acc ch => if ch = '$' then acc ++ var else acc.push ch) ""

/-- `rspamd_task_log_write_var (task, logbuf, var, content)`: appends the
variable bare when there is no content template, otherwise the template with
`$` replaced by the variable. -/
def rspamd_task_log_write_var (logbuf var : String) (content : Option String) : String :=
  match content with
  | none => logbuf ++ var
  | some c => logbuf ++ substDollar c var

/-- The element loop shared by `rspamd_task_write_addr_list` and
`rspamd_task_write_ialist` (their bodies differ only in how an element's
address string is fetched; both guard a possibly-null address, modelled as
`Option String`, append a comma whenever the buffer is non-empty and `i` is
not the last index, and append `"..."` and break once `i >= max_log_elts`).
The C `for (i = 0; i < lim; i ++)` loop is rendered structurally on the
number `n` of remaining iterations (`n = lim - i`), so `i = lim - 1` becomes
`n = 1`. -/
def rspamd_addr_list_elts (addrs : List (Option String)) : Nat → Nat → String → String
  | 0, _, varbuf => varbuf
  | n + 1, i, varbuf =>
    let vb1 := match addrs.getD i none with
      | some a => varbuf ++ a
      | none => varbuf
    let vb2 := if 0 < vb1.length ∧ n ≠ 0 then vb1 ++ "," else vb1
    if max_log_elts ≤ i then vb2 ++ "..."
    else rspamd_addr_list_elts addrs n (i + 1) vb2

/-- `rspamd_task_write_addr_list (task, addrs, lim, lf, logbuf)`: renders a
`GPtrArray` of `rspamd_email_address` (each element's `addr` may be null);
`lim <= 0` means "no limit" (the array length), and a non-empty rendering is
emitted through `rspamd_task_log_write_var` with the item's content
template. -/
def rspamd_task_write_addr_list (addrs : List (Option String)) (lim : Int)
    (data : Option String) (logbuf : String) : String :=
  let limN : Nat := if lim ≤ 0 then addrs.length else lim.toNat
  let varbuf := rspamd_addr_list_elts addrs limN 0 ""
  if 0 < varbuf.length then rspamd_task_log_write_var logbuf varbuf data else logbuf

/-- `rspamd_task_write_ialist (task, ialist, lim, lf, logbuf)`: same loop over
an `InternetAddressList`; an element that is absent or not a mailbox
(modelled `none`) contributes nothing. -/
def rspamd_task_write_ialist (ialist : List (Option String)) (lim : Int)
    (data : Option String) (logbuf : String) : String :=
  let limN : Nat := if lim ≤ 0 then ialist.length else lim.toNat
  let varbuf := rspamd_addr_list_elts ialist limN 0 ""
  if 0 < varbuf.length then rspamd_task_log_write_var logbuf varbuf data else logbuf

/-- One unfolding of the element loop. -/
theorem elts_step (addrs : List (Option String)) (n i : Nat) (vb : String) :
    rspamd_addr_list_elts addrs (n + 1) i vb =
      (let vb1 := match addrs.getD i none with
        | some a => vb ++ a
        | none => vb
       let vb2 := if 0 < vb1.length ∧ n ≠ 0 then vb1 ++ "," else vb1
       if max_log_elts ≤ i then vb2 ++ "..."
       else rspamd_addr_list_elts addrs n (i + 1) vb2) := rfl

theorem elts_step_mid (addrs : List (Option String)) (n i : Nat) (vb a : String)
    (hget : addrs.getD i none = some a) (hvb : 0 < (vb ++ a).length)
    (hn : n ≠ 0) (hi : i < max_log_elts) :
    rspamd_addr_list_elts addrs (n + 1) i vb =
      rspamd_addr_list_elts addrs n (i + 1) (vb ++ a ++ ",") := by
  rw [elts_step]
  simp only [hget, if_pos (And.intro hvb hn), if_neg (by omega : ¬ max_log_elts ≤ i)]

theorem elts_step_break (addrs : List (Option String)) (n i : Nat) (vb a : String)
    (hget : addrs.getD i none = some a) (hvb : 0 < (vb ++ a).length)
    (hn : n ≠ 0) (hi : max_log_elts ≤ i) :
    rspamd_addr_list_elts addrs (n + 1) i vb = vb ++ a ++ "," ++ "..." := by
  rw [elts_step]
  simp only [hget, if_pos (And.intro hvb hn), if_pos hi]

theorem elts_step_break_last (addrs : List (Option String)) (i : Nat) (vb a : String)
    (hget : addrs.getD i none = some a) (hi : max_log_elts ≤ i) :
    rspamd_addr_list_elts addrs 1 i vb = vb ++ a ++ "..." := by
  rw [elts_step]
  simp only [hget, if_neg (by simp : ¬ (0 < (vb ++ a).length ∧ (0 : Nat) ≠ 0)), if_pos hi]

/-- Eight envelope addresses. -/
def addrs8 : List (Option String) :=
  [some "a1", some "a2", some "a3", some "a4", some "a5", some "a6", some "a7", some "a8"]

/-- C3 counterexample: rendering a list of 8 addresses without a limit
(`SMTP_RCPTS` / `MIME_RCPTS` pass `lim = -1`) emits all eight entries and
then `"..."` — not "exactly 7 comma-separated entries followed by `...`" as
the claim states.  The loop's truncation check `i >= max_log_elts` runs after
element `i` has already been appended, so elements `0..7` are all emitted. -/
theorem c3_truncation_counterexample :
    rspamd_task_write_addr_list addrs8 (-1) none "" = "a1,a2,a3,a4,a5,a6,a7,a8..." ∧
    rspamd_task_write_ialist addrs8 (-1) none "" = "a1,a2,a3,a4,a5,a6,a7,a8..." ∧
    rspamd_task_write_addr_list addrs8 (-1) none "" ≠ "a1,a2,a3,a4,a5,a6,a7..." ∧
    rspamd_task_write_addr_list addrs8 (-1) none "" ≠ "a1,a2,a3,a4,a5,a6,a7,..." := by
  decide

theorem length_pos_of_ne_empty (s : String) (h : s ≠ "") : 0 < s.length := by
  cases s with
  | mk data =>
    cases data with
    | nil => exact absurd rfl h
    | cons c cs => simp [String.length]

theorem str_empty_append (x : String) : "" ++ x = x := by simp

/-- Evaluation of the element loop on a list whose first eight elements are
present addresses, the first of them non-empty: all eight are emitted, with a
trailing comma before the `"..."` exactly when further elements follow. -/
theorem elts_eight (A : List (Option String)) (a b c d e f g h : String) (L : Nat)
    (h0 : A.getD 0 none = some a) (h1 : A.getD 1 none = some b)
    (h2 : A.getD 2 none = some c) (h3 : A.getD 3 none = some d)
    (h4 : A.getD 4 none = some e) (h5 : A.getD 5 none = some f)
    (h6 : A.getD 6 none = some g) (h7 : A.getD 7 none = some h)
    (ha : 0 < a.length) :
    (L = 0 → rspamd_addr_list_elts A (L + 8) 0 "" =
      a ++ "," ++ b ++ "," ++ c ++ "," ++ d ++ "," ++ e ++ "," ++ f ++ "," ++ g ++ "," ++
        h ++ "...") ∧
    (L ≠ 0 → rspamd_addr_list_elts A (L + 8) 0 "" =
      a ++ "," ++ b ++ "," ++ c ++ "," ++ d ++ "," ++ e ++ "," ++ f ++ "," ++ g ++ "," ++
        h ++ "," ++ "...") := by
  have hmid : rspamd_addr_list_elts A (L + 8) 0 "" =
      rspamd_addr_list_elts A (L + 1) 7
        (a ++ "," ++ b ++ "," ++ c ++ "," ++ d ++ "," ++ e ++ "," ++ f ++ "," ++ g ++ ",") := by
    rw [elts_step_mid A (L + 7) 0 "" a h0
      (by rw [str_empty_append]; exact ha) (by omega) (by decide), str_empty_append]
    rw [elts_step_mid A (L + 6) 1 _ b h1
      (by simp [String.length_append]; omega) (by omega) (by decide)]
    rw [elts_step_mid A (L + 5) 2 _ c h2
      (by simp [String.length_append]; omega) (by omega) (by decide)]
    rw [elts_step_mid A (L + 4) 3 _ d h3
      (by simp [String.length_append]; omega) (by omega) (by decide)]
    rw [elts_step_mid A (L + 3) 4 _ e h4
      (by simp [String.length_append]; omega) (by omega) (by decide)]
    rw [elts_step_mid A (L + 2) 5 _ f h5
      (by simp [String.length_append]; omega) (by omega) (by decide)]
    rw [elts_step_mid A (L + 1) 6 _ g h6
      (by simp [String.length_append]; omega) (by omega) (by decide)]
  constructor
  · intro hL
    subst hL
    rw [hmid, elts_step_break_last A 7 _ h h7 (by decide)]
  · intro hL
    rw [hmid, elts_step_break A L 7 _ h h7
      (by simp [String.length_append]; omega) hL (by decide)]

/-- C3 (amended): rendering strictly more than 7 non-degenerate addresses
with no limit emits exactly the first EIGHT entries followed by `"..."` (a
comma separates the eighth entry from the `"..."` precisely when a ninth
element exists), for both the envelope-address and the MIME-address
renderers.  The original claim's "exactly 7 entries" is off by one: the
`i >= max_log_elts` break fires only after element `i = 7` has been
appended. -/
theorem c3_truncation_amended (a b c d e f g h : String) (rest : List String)
    (hne : ∀ x, x ∈ [a, b, c, d, e, f, g, h] → x ≠ "") :
    rspamd_task_write_addr_list (([a, b, c, d, e, f, g, h] ++ rest).map some) (-1) none "" =
      a ++ "," ++ b ++ "," ++ c ++ "," ++ d ++ "," ++ e ++ "," ++ f ++ "," ++ g ++ "," ++
        h ++ (if rest = [] then "..." else "," ++ "...") ∧
    rspamd_task_write_ialist (([a, b, c, d, e, f, g, h] ++ rest).map some) (-1) none "" =
      a ++ "," ++ b ++ "," ++ c ++ "," ++ d ++ "," ++ e ++ "," ++ f ++ "," ++ g ++ "," ++
        h ++ (if rest = [] then "..." else "," ++ "...") := by
  have ha : 0 < a.length := length_pos_of_ne_empty a (hne a (by simp))
  have hA : ([a, b, c, d, e, f, g, h] ++ rest).map some =
      some a :: some b :: some c :: some d :: some e :: some f :: some g :: some h ::
        rest.map some := by simp
  have hlen : (some a :: some b :: some c :: some d :: some e :: some f :: some g :: some h ::
      rest.map some).length = rest.length + 8 := by simp
  have helts := elts_eight
    (some a :: some b :: some c :: some d :: some e :: some f :: some g :: some h ::
      rest.map some) a b c d e f g h rest.length rfl rfl rfl rfl rfl rfl rfl rfl ha
  have hone : ∀ lim : Int, lim = -1 →
      (if lim ≤ 0 then (some a :: some b :: some c :: some d :: some e :: some f :: some g ::
        some h :: rest.map some).length else lim.toNat) = rest.length + 8 := by
    intro lim hlim
    subst hlim
    rw [if_pos (by norm_num), hlen]
  have key : rspamd_addr_list_elts
      (some a :: some b :: some c :: some d :: some e :: some f :: some g :: some h ::
        rest.map some) (rest.length + 8) 0 "" =
      a ++ "," ++ b ++ "," ++ c ++ "," ++ d ++ "," ++ e ++ "," ++ f ++ "," ++ g ++ "," ++
        h ++ (if rest = [] then "..." else "," ++ "...") := by
    by_cases hrest : rest = []
    · rw [if_pos hrest]
      have : rest.length = 0 := by rw [hrest]; rfl
      rw [this] at helts ⊢
      exact helts.1 rfl
    · rw [if_neg hrest]
      have hL : rest.length ≠ 0 := by
        intro hzero
        exact hrest (List.length_eq_zero.mp hzero)
      rw [← String.append_assoc]
      exact helts.2 hL
  have hpos : 0 < (a ++ "," ++ b ++ "," ++ c ++ "," ++ d ++ "," ++ e ++ "," ++ f ++ "," ++
      g ++ "," ++ h ++ (if rest = [] then "..." else "," ++ "...")).length := by
    simp [String.length_append]
    omega
  constructor
  · rw [rspamd_task_write_addr_list, hA]
    simp only [hone (-1) rfl, key, if_pos hpos, rspamd_task_log_write_var, str_empty_append]
  · rw [rspamd_task_write_ialist, hA]
    simp only [hone (-1) rfl, key, if_pos hpos, rspamd_task_log_write_var, str_empty_append]

/-- Witness for `c3_truncation_amended`: nine addresses, so the comma before
`"..."` appears. -/
theorem c3_truncation_amended_witness :
    (∀ x, x ∈ ["a1", "a2", "a3", "a4", "a5", "a6", "a7", "a8"] → x ≠ "") ∧
    rspamd_task_write_addr_list
        ((["a1", "a2", "a3", "a4", "a5", "a6", "a7", "a8"] ++ ["a9"]).map some) (-1) none "" =
      "a1" ++ "," ++ "a2" ++ "," ++ "a3" ++ "," ++ "a4" ++ "," ++ "a5" ++ "," ++ "a6" ++ "," ++
        "a7" ++ "," ++ "a8" ++ (if (["a9"] : List String) = [] then "..." else "," ++ "...") :=
  ⟨by decide,
    (c3_truncation_amended "a1" "a2" "a3" "a4" "a5" "a6" "a7" "a8" ["a9"] (by decide)).1⟩

/-! ### Message loader (`rspamd_task_load_message`)

Syscalls (`shm_open`/`open`, `fstat`, `mmap`) and external library calls
(`rspamd_decode_url`, `rspamd_strtoul`, the UCL parser, the protocol layer)
are an explicit environment.  A shared-memory segment or file is a content
string; `none` models any failure of the open/stat/mmap sequence (the
individual error messages differ in C but every such branch sets a
`ProtocolError` and returns FALSE, which is what matters here).
`env.strtoul` returns `none` on parse failure, in which case the C code
leaves the pre-initialised value in place (modelled by `Option.getD`). -/

def PATH_MAX : Nat := 4096

structure LoadEnv where
  handle_headers : TaskState → TaskState
  decode_url : String → String
  shm_open_stat_mmap : String → Option String
  file_stat_open_mmap : String → Option String
  strtoul : String → Option Nat
  ucl_parse : String → Option String
  handle_control : TaskState → String → TaskState

/-- Path resolution applied to `shm`/`file`/`path` header values:
`rspamd_strlcpy` into a `PATH_MAX` buffer (truncating longer values), then
`rspamd_decode_url`, then unquoting when the value starts with `"` and has
length above 2 (drop the first character and the last). -/
def rspamdResolvePath (env : LoadEnv) (tok : String) : String :=
  let copied := if tok.length < PATH_MAX then tok else tok.take (PATH_MAX - 1)
  let decoded := env.decode_url copied
  if 2 < decoded.length ∧ decoded.front = '"' then (decoded.drop 1).dropRight 1
  else decoded

/-- `rspamd_task_load_message (task, msg, start, len)`.  `hasMsg` models a
non-null `msg` argument (whose headers were already merged into
`task->request_headers` by `rspamd_protocol_handle_headers`).  Returns the
C `gboolean` together with the resulting task state. -/
def rspamd_task_load_message (env : LoadEnv) (t0 : TaskState) (hasMsg : Bool)
    (start : String) (len : Nat) : Bool × TaskState :=
  let t := if hasMsg then env.handle_headers t0 else t0
  match lookupHeaderI t.request_headers "shm" with
  | some tok =>
    let fp := rspamdResolvePath env tok
    match env.shm_open_stat_mmap fp with
    | none =>
      let e : GErr := ⟨taskErrDomain, RSPAMD_PROTOCOL_ERROR, "Cannot open shm segment (" ++ fp ++ ")"⟩
      (false, { t with err := gSetError t.err e })
    | some content =>
      let stSize := content.length
      let offTok := lookupHeaderI t.request_headers "shm-offset"
      let offset := match offTok with
        | some s => (env.strtoul s).getD 0
        | none => 0
      if offTok ≠ none ∧ stSize < offset then
        (false, t)
      else
        let lenTok := lookupHeaderI t.request_headers "shm-length"
        let shmemSize := match lenTok with
          | some s => (env.strtoul s).getD stSize
          | none => stSize
        if lenTok ≠ none ∧ stSize < shmemSize then
          (false, t)
        else
          (true, { t with
            msg := ⟨content, offset, shmemSize⟩,
            flags := { t.flags with file := true } })
  | none =>
    let ftok := match lookupHeaderI t.request_headers "file" with
      | some x => some x
      | none => lookupHeaderI t.request_headers "path"
    match ftok with
    | some tok =>
      let fp := rspamdResolvePath env tok
      match env.file_stat_open_mmap fp with
      | none =>
        let e : GErr := ⟨taskErrDomain, RSPAMD_PROTOCOL_ERROR, "Invalid file (" ++ fp ++ ")"⟩
        (false, { t with err := gSetError t.err e })
      | some content =>
        (true, { t with
          msg := ⟨content, 0, content.length⟩,
          flags := { t.flags with file := true } })
    | none =>
      let t1 : TaskState := { t with msg := ⟨start, 0, len⟩ }
      let t2 : TaskState :=
        if t1.msg.len = 0 then { t1 with flags := { t1.flags with empty := true } } else t1
      if t2.flags.has_control then
        if t2.msg.len < t2.message_len then
          let e : GErr := ⟨taskErrDomain, RSPAMD_PROTOCOL_ERROR, "Invalid length"⟩
          (false, { t2 with err := gSetError t2.err e })
        else
          let controlLen := t2.msg.len - t2.message_len
          if 0 < controlLen then
            let chunk := (t2.msg.buf.drop t2.msg.off).take controlLen
            let t3 := match env.ucl_parse chunk with
              | none => t2
              | some obj => env.handle_control t2 obj
            let w : ByteWin := { t3.msg with off := t3.msg.off + controlLen, len := t3.msg.len - controlLen }
            (true, { t3 with msg := w })
          else
            (true, t2)
      else
        (true, t2)

/-- Identity-ish load environment with a single 10-byte shm segment `"seg"`;
`strtoul` is decimal parsing, URL-decoding and the protocol hooks are
inert. -/
def envShm : LoadEnv where
  handle_headers := id
  decode_url := id
  shm_open_stat_mmap := fun n => if n = "seg" then some "0123456789" else none
  file_stat_open_mmap := fun _ => none
  strtoul := parseDec
  ucl_parse := fun _ => none
  handle_control := fun t _ => t

/-- A task requesting the shm source with an out-of-range offset. -/
def taskShmOff : TaskState :=
  { rspamd_task_new with request_headers := [("shm", "seg"), ("shm-offset", "100")] }

/-- C4 counterexample: with `shm-offset = 100` against a 10-byte segment the
load returns failure but `task->err` stays unset — the offset/length
validation branches only log (`msg_err_task`) and `return FALSE`, unlike the
open/stat/mmap failure branches, which call `g_set_error`.  The claim's
"err is set to a ProtocolError" is therefore false at this input. -/
theorem c4_shm_bounds_counterexample :
    (rspamd_task_load_message envShm taskShmOff false "" 0).1 = false ∧
    (rspamd_task_load_message envShm taskShmOff false "" 0).2.err = none ∧
    (rspamd_task_load_message envShm taskShmOff false "" 0).2 = taskShmOff := by
  decide

/-- C4 (amended): when the parsed `shm-offset` exceeds the segment size, or
the offset check passes (offset header absent, or its parsed value within
the segment) and the parsed `shm-length` exceeds the segment size, the load
returns failure with the task state — in particular `err` — completely
unchanged; the error is only logged and the mapping released. -/
theorem c4_shm_bounds_amended (env : LoadEnv) (t : TaskState) (start : String)
    (len : Nat) (tok content : String)
    (h1 : lookupHeaderI t.request_headers "shm" = some tok)
    (h2 : env.shm_open_stat_mmap (rspamdResolvePath env tok) = some content) :
    (∀ otok off, lookupHeaderI t.request_headers "shm-offset" = some otok →
      env.strtoul otok = some off → content.length < off →
      rspamd_task_load_message env t false start len = (false, t)) ∧
    (∀ ltok slen,
      (∀ s, lookupHeaderI t.request_headers "shm-offset" = some s →
        (env.strtoul s).getD 0 ≤ content.length) →
      lookupHeaderI t.request_headers "shm-length" = some ltok →
      env.strtoul ltok = some slen → content.length < slen →
      rspamd_task_load_message env t false start len = (false, t)) := by
  constructor
  · intro otok off ho hs hlt
    rw [rspamd_task_load_message]
    simp only [Bool.false_eq_true, if_false, h1, h2, ho, hs, Option.getD_some]
    rw [if_pos ⟨by simp, hlt⟩]
  · intro ltok slen hofs hl hs hlt
    rw [rspamd_task_load_message]
    simp only [Bool.false_eq_true, if_false, h1, h2]
    cases ho : lookupHeaderI t.request_headers "shm-offset" with
    | none =>
      simp only [ho, hl, hs, Option.getD_some]
      rw [if_neg (by simp), if_pos ⟨by simp, hlt⟩]
    | some s =>
      have hle := hofs s ho
      simp only [ho, hl, hs, Option.getD_some]
      rw [if_neg (fun hcon => absurd hcon.2 (by omega)), if_pos ⟨by simp, hlt⟩]

/-- A task requesting the shm source with an in-range offset but an
out-of-range length. -/
def taskShmLen : TaskState :=
  { rspamd_task_new with
    request_headers := [("shm", "seg"), ("shm-offset", "5"), ("shm-length", "100")] }

/-- Witness for `c4_shm_bounds_amended` at the concrete environment of the
counterexample: the offset conjunct on `taskShmOff`, and the length conjunct
on `taskShmLen`, whose offset header is present and within the segment. -/
theorem c4_shm_bounds_amended_witness :
    (lookupHeaderI taskShmOff.request_headers "shm" = some "seg" ∧
      envShm.strtoul "100" = some 100 ∧
      ("0123456789" : String).length < 100 ∧
      lookupHeaderI taskShmLen.request_headers "shm-offset" = some "5" ∧
      (envShm.strtoul "5").getD 0 ≤ ("0123456789" : String).length) ∧
    rspamd_task_load_message envShm taskShmOff false "x" 1 = (false, taskShmOff) ∧
    rspamd_task_load_message envShm taskShmLen false "x" 1 = (false, taskShmLen) :=
  ⟨⟨by decide, by decide, by decide, by decide, by decide⟩,
    (c4_shm_bounds_amended envShm taskShmOff "x" 1 "seg" "0123456789"
      (by decide) (by decide)).1 "100" 100 (by decide) (by decide) (by decide),
    (c4_shm_bounds_amended envShm taskShmLen "x" 1 "seg" "0123456789"
      (by decide) (by decide)).2 "100" 100
      (by
        intro s hs
        have he : lookupHeaderI taskShmLen.request_headers "shm-offset" = some "5" := by
          decide
        rw [he] at hs
        injection hs with h
        subst h
        decide)
      (by decide) (by decide) (by decide)⟩

/-- Inline-only load environment: no shm segments, no files, inert hooks. -/
def envInline : LoadEnv where
  handle_headers := id
  decode_url := id
  shm_open_stat_mmap := fun _ => none
  file_stat_open_mmap := fun _ => none
  strtoul := parseDec
  ucl_parse := fun _ => none
  handle_control := fun t _ => t

/-- A task with the has-control-chunk flag and a declared message length of
10 (so a 3-byte input makes the unsigned `control_len` wrap). -/
def taskCtrl : TaskState :=
  { rspamd_task_new with
    message_len := 10,
    flags := { rspamd_task_new.flags with has_control := true } }

/-- C5 counterexample: with `msg.len = 3 < message_len = 10` the load fails
with `ProtocolError("Invalid length")` as claimed, but the task state is NOT
left unmutated: `task->msg` was already assigned the full inline window
(`begin = start`, `len = 3`) before the length check. -/
theorem c5_control_len_counterexample :
    (rspamd_task_load_message envInline taskCtrl false "abc" 3).1 = false ∧
    (rspamd_task_load_message envInline taskCtrl false "abc" 3).2.err =
      some ⟨taskErrDomain, RSPAMD_PROTOCOL_ERROR, "Invalid length"⟩ ∧
    (rspamd_task_load_message envInline taskCtrl false "abc" 3).2.msg ≠ taskCtrl.msg := by
  decide

/-- C5 (amended): an inline load with the has-control-chunk flag whose input
is shorter than the declared message length (so the unsigned
`control_len = msg.len - message_len` would exceed `msg.len`) fails with
`ProtocolError("Invalid length")`; no control parsing happens and the window
is not advanced, but the `msg` window has already been set to the full
inline buffer (and the empty-message flag updated for zero-length input), so
the state is mutated to that extent. -/
theorem c5_control_len_amended (env : LoadEnv) (t : TaskState) (start : String) (len : Nat)
    (hshm : lookupHeaderI t.request_headers "shm" = none)
    (hfile : lookupHeaderI t.request_headers "file" = none)
    (hpath : lookupHeaderI t.request_headers "path" = none)
    (hctrl : t.flags.has_control = true)
    (hlen : len < t.message_len) :
    rspamd_task_load_message env t false start len =
      (false, { t with
        msg := ⟨start, 0, len⟩,
        flags := { t.flags with empty := if len = 0 then true else t.flags.empty },
        err := gSetError t.err ⟨taskErrDomain, RSPAMD_PROTOCOL_ERROR, "Invalid length"⟩ }) := by
  by_cases hz : len = 0
  · subst hz
    have hlen0 : 0 < t.message_len := hlen
    simp [rspamd_task_load_message, hshm, hfile, hpath, hctrl, hlen0]
  · simp [rspamd_task_load_message, hshm, hfile, hpath, hctrl, hz, hlen]
    rw [← hctrl]

/-- Witness for `c5_control_len_amended` at the concrete counterexample
input. -/
theorem c5_control_len_amended_witness :
    ((3 : Nat) < taskCtrl.message_len ∧ taskCtrl.flags.has_control = true) ∧
    rspamd_task_load_message envInline taskCtrl false "abc" 3 =
      (false, { taskCtrl with
        msg := ⟨"abc", 0, 3⟩,
        flags := { taskCtrl.flags with
          empty := if (3 : Nat) = 0 then true else taskCtrl.flags.empty },
        err := gSetError taskCtrl.err
          ⟨taskErrDomain, RSPAMD_PROTOCOL_ERROR, "Invalid length"⟩ }) :=
  ⟨⟨by decide, by decide⟩,
    c5_control_len_amended envInline taskCtrl "abc" 3
      (by decide) (by decide) (by decide) (by decide) (by decide)⟩

/-- C9: on an inline load with the has-control-chunk flag, the empty-message
flag is decided on the input length before control-chunk extraction: with
`len > 0` and `message_len = 0` (the whole input is control data) the flag
stays clear even though the final `msg` window, advanced past the control
prefix, is empty (`len = 0`, offset at the end of the input).  The protocol
layer's control merge is required not to touch the empty flag or the window
(it only merges settings). -/
theorem c9_empty_flag_before_control (env : LoadEnv) (t : TaskState) (start : String)
    (len : Nat)
    (hshm : lookupHeaderI t.request_headers "shm" = none)
    (hfile : lookupHeaderI t.request_headers "file" = none)
    (hpath : lookupHeaderI t.request_headers "path" = none)
    (hctrl : t.flags.has_control = true)
    (hlen : 0 < len)
    (hmlen : t.message_len = 0)
    (hempty : t.flags.empty = false)
    (hpres : ∀ u obj, (env.handle_control u obj).flags.empty = u.flags.empty ∧
      (env.handle_control u obj).msg = u.msg) :
    (rspamd_task_load_message env t false start len).1 = true ∧
    (rspamd_task_load_message env t false start len).2.flags.empty = false ∧
    (rspamd_task_load_message env t false start len).2.msg.len = 0 ∧
    (rspamd_task_load_message env t false start len).2.msg.off = len := by
  have hne : ¬ len = 0 := by omega
  have hnl : ¬ (len < t.message_len) := by omega
  have hcl : 0 < len - t.message_len := by omega
  cases hu : env.ucl_parse ((start.drop 0).take (len - t.message_len)) with
  | none =>
    rw [hmlen, Nat.sub_zero] at hu
    simp [rspamd_task_load_message, hshm, hfile, hpath, hne, hctrl, hnl, hcl, hu,
      hempty, hmlen, hlen]
  | some obj =>
    rw [hmlen, Nat.sub_zero] at hu
    have hp := hpres { t with msg := ⟨start, 0, len⟩, message_len := 0 } obj
    simp [rspamd_task_load_message, hshm, hfile, hpath, hne, hctrl, hnl, hcl, hu,
      hempty, hmlen, hlen, hp.1, hp.2]

/-- A task with the has-control-chunk flag and declared message length 0:
the whole inline input is control data. -/
def taskAllCtrl : TaskState :=
  { rspamd_task_new with flags := { rspamd_task_new.flags with has_control := true } }

/-- Witness for `c9_empty_flag_before_control`: three bytes of pure control
data; the load succeeds, the empty flag stays clear, and the final window is
empty. -/
theorem c9_empty_flag_before_control_witness :
    ((0 : Nat) < 3 ∧ taskAllCtrl.message_len = 0 ∧ taskAllCtrl.flags.empty = false) ∧
    ((rspamd_task_load_message envInline taskAllCtrl false "abc" 3).1 = true ∧
    (rspamd_task_load_message envInline taskAllCtrl false "abc" 3).2.flags.empty = false ∧
    (rspamd_task_load_message envInline taskAllCtrl false "abc" 3).2.msg.len = 0 ∧
    (rspamd_task_load_message envInline taskAllCtrl false "abc" 3).2.msg.off = 3) :=
  ⟨⟨by decide, by decide, by decide⟩,
    c9_empty_flag_before_control envInline taskAllCtrl "abc" 3
      (by decide) (by decide) (by decide) (by decide) (by decide) (by decide) (by decide)
      (fun u obj => ⟨rfl, rfl⟩)⟩

/-! ### Recipient resolver (`rspamd_task_get_principal_recipient`)

The GPtrArray `rcpt_envelope` is `Option (List (Option String))` (the array
pointer may be NULL; each element's `addr` may be NULL); `rcpt_mime` is the
GMime list, whose out-of-range `internet_address_list_get_address` safely
returns NULL.  `g_ptr_array_index` performs NO bounds check, so indexing an
empty array is undefined behaviour; the embedding surfaces it as
`Except.error`. -/

/-- `rspamd_task_cache_principal_recipient`: lowercase the chosen address,
store it under the mempool variable `"recipient"`, return the cached copy. -/
def rspamd_task_cache_principal_recipient (t : TaskState) (rcpt : Option String) :
    TaskState × Option String :=
  match rcpt with
  | none => (t, none)
  | some r =>
    let lc := asciiLowerStr r
    ({ t with pool_vars := ("recipient", lc) :: t.pool_vars }, some lc)

/-- `rspamd_task_get_principal_recipient`, returning the mutated task and the
selected address, or an `Except.error` when the code performs the unchecked
`g_ptr_array_index (task->rcpt_envelope, 0)` on an empty array. -/
def rspamd_task_get_principal_recipient (t : TaskState) :
    Except String (TaskState × Option String) :=
  match lookupExact t.pool_vars "recipient" with
  | some v => .ok (t, some v)
  | none =>
    match t.deliver_to with
    | some d => .ok (rspamd_task_cache_principal_recipient t (some d))
    | none =>
      match t.rcpt_envelope with
      | some l =>
        match l.getD 0 none, l.length with
        | _, 0 => .error "g_ptr_array_index on empty rcpt_envelope"
        | some a, _ => .ok (rspamd_task_cache_principal_recipient t (some a))
        | none, _ => principalRecipientMime t
      | none => principalRecipientMime t
where
  /-- The trailing GMime branch (`rcpt_mime` lookup). -/
  principalRecipientMime (t : TaskState) : Except String (TaskState × Option String) :=
    match t.rcpt_mime with
    | some ml =>
      match ml.getD 0 none with
      | some a => .ok (rspamd_task_cache_principal_recipient t (some a))
      | none => .ok (t, none)
    | none => .ok (t, none)

/-- A task with no cached recipient, no `deliver_to`, a present-but-EMPTY
envelope recipient array, and a perfectly good MIME recipient. -/
def taskEmptyRcpt : TaskState :=
  { rspamd_task_new with
    rcpt_envelope := some [],
    rcpt_mime := some [some "user@example.com"] }

/-- C7: the claim says element 0 of `rcpt_envelope` is consulted only when
the array is non-empty, with a safe fall-through to the MIME list otherwise.
The code checks only `task->rcpt_envelope != NULL` and then performs the
unchecked `g_ptr_array_index (task->rcpt_envelope, 0)` followed by
`addr->addr`, so a present-but-empty array is read out of bounds (undefined
behaviour) instead of falling through — the condition checker at task.c:806
(`rcpt_envelope->len > 0`) shows the intended guard.  The embedding returns
an error marker at exactly that access. -/
theorem c7_empty_rcpt_envelope_oob :
    rspamd_task_get_principal_recipient taskEmptyRcpt =
      .error "g_ptr_array_index on empty rcpt_envelope" ∧
    taskEmptyRcpt.rcpt_envelope = some [] ∧
    taskEmptyRcpt.rcpt_mime = some [some "user@example.com"] :=
  ⟨rfl, rfl, rfl⟩

/-! ### Symbol comparator and SYMBOLS rendering (`rspamd_task_compare_log_sym`)

`gdouble` scores are idealised as `ℚ`: `fabs` is `|·|`, the C cast
`(gint)((w2 - w1) * 1000.0)` is truncation toward zero (`truncQ`), and
`strcmp` on the (non-null, hash-key) names is the sign of the string order.
The counterexample below uses scores `1` and `2001/2000`, for which IEEE
doubles compute the same comparator values (`(fabs` is exact, the scaled
difference is far from an integer boundary), so the idealisation is
harmless. -/

def strcmpInt (a b : String) : Int :=
  if a < b then -1 else if b < a then 1 else 0

/-- Truncation toward zero: the C `(gint)` cast of a double. -/
def truncQ (q : ℚ) : Int := if 0 ≤ q then ⌊q⌋ else ⌈q⌉

/-- `rspamd_task_compare_log_sym`: sort by `|score|` descending, breaking
exact-`|score|` ties by name; otherwise the scaled difference truncated to
`gint` — which collapses `|score|` gaps below `0.001` to a tie. -/
def rspamd_task_compare_log_sym (s1 s2 : Symb) : Int :=
  if |s1.score| = |s2.score| then strcmpInt s1.name s2.name
  else truncQ ((|s2.score| - |s1.score|) * 1000)

/-- A sorted-output relation for `g_ptr_array_sort` (qsort): the output is a
permutation of the hash-iteration order that is pairwise non-descending under
the comparator.  qsort guarantees nothing more — in particular, the relative
order of comparator ties is unspecified. -/
def IsSortOutput (input out : List Symb) : Prop :=
  out.Perm input ∧ out.Pairwise (fun a b => rspamd_task_compare_log_sym a b ≤ 0)

instance (input out : List Symb) : Decidable (IsSortOutput input out) := by
  unfold IsSortOutput
  infer_instance

/-- The symbol-options loop of the SYMBOLS branch: each option is printed
with a trailing `;`, and after printing option `j` with `j >= max_log_elts`
the loop emits `"...;"` and breaks. -/
def renderSymOpts : List String → Nat → String → String
  | [], _, buf => buf
  | o :: rest, j, buf =>
    let buf := buf ++ o ++ ";"
    if max_log_elts ≤ j then buf ++ "...;" else renderSymOpts rest (j + 1) buf

/-- The per-symbol emission loop of the SYMBOLS branch of
`rspamd_task_log_metric_res`, applied to the already-sorted array: names
comma-separated, optional `(score)` under `RSPAMD_LOG_FLAG_SYMBOLS_SCORES`,
optional `{opt;…}` under `RSPAMD_LOG_FLAG_SYMBOLS_PARAMS`. -/
def renderLogSyms (fmt : ℚ → String) (scoresF paramsF : Bool) :
    List Symb → Bool → String → String
  | [], _, buf => buf
  | sym :: rest, first, buf =>
    let buf := if first then buf ++ sym.name else buf ++ "," ++ sym.name
    let buf := if scoresF then buf ++ "(" ++ fmt sym.score ++ ")" else buf
    let buf := if paramsF then renderSymOpts sym.options 0 (buf ++ "\x7b") ++ "\x7d" else buf
    renderLogSyms fmt scoresF paramsF rest false buf

def symA : Symb := ⟨"A", 1, []⟩

def symB : Symb := ⟨"B", 2001 / 2000, []⟩

/-- C6 counterexample: `|A| = 1` and `|B| = 1.0005` differ, but the scaled
difference `0.5` truncates to `0`, so the comparator reports a tie in both
directions without falling back to the name comparison.  Both `[A, B]` and
`[B, A]` are therefore valid sort outputs of the same symbol set, and they
render differently — the SYMBOLS rendering is neither sorted by `|score|`
descending (B should precede A) nor stable under permutation of the
insertion order. -/
theorem c6_symbol_sort_counterexample :
    rspamd_task_compare_log_sym symA symB = 0 ∧
    rspamd_task_compare_log_sym symB symA = 0 ∧
    IsSortOutput [symA, symB] [symA, symB] ∧
    IsSortOutput [symA, symB] [symB, symA] ∧
    renderLogSyms (fun _ => "") false false [symA, symB] true "" = "A,B" ∧
    renderLogSyms (fun _ => "") false false [symB, symA] true "" = "B,A" ∧
    ("A,B" : String) ≠ "B,A" := by
  have habsB : |(2001 / 2000 : ℚ)| = 2001 / 2000 := abs_of_nonneg (by norm_num)
  have hAB : rspamd_task_compare_log_sym symA symB = 0 := by
    rw [rspamd_task_compare_log_sym, if_neg (by norm_num [symA, symB, habsB])]
    have hv : (|symB.score| - |symA.score|) * 1000 = 1 / 2 := by
      norm_num [symA, symB, habsB]
    rw [hv, truncQ, if_pos (by norm_num)]
    rw [Int.floor_eq_iff]
    norm_num
  have hBA : rspamd_task_compare_log_sym symB symA = 0 := by
    rw [rspamd_task_compare_log_sym, if_neg (by norm_num [symA, symB, habsB])]
    have hv : (|symA.score| - |symB.score|) * 1000 = -(1 / 2) := by
      norm_num [symA, symB, habsB]
    rw [hv, truncQ, if_neg (by norm_num)]
    rw [Int.ceil_eq_iff]
    norm_num
  have hsAB : List.Pairwise (fun a b => rspamd_task_compare_log_sym a b ≤ 0)
      [symA, symB] := by
    rw [List.pairwise_cons]
    refine ⟨fun b hb => ?_, by simp⟩
    have hb' : b = symB := by simpa using hb
    subst hb'
    exact le_of_eq hAB
  have hsBA : List.Pairwise (fun a b => rspamd_task_compare_log_sym a b ≤ 0)
      [symB, symA] := by
    rw [List.pairwise_cons]
    refine ⟨fun b hb => ?_, by simp⟩
    have hb' : b = symA := by simpa using hb
    subst hb'
    exact le_of_eq hBA
  exact ⟨hAB, hBA, ⟨List.Perm.refl _, hsAB⟩, ⟨List.Perm.swap symA symB [], hsBA⟩,
    by decide, by decide, by decide⟩

theorem strcmpInt_neg (a b : String) : strcmpInt b a = - strcmpInt a b := by
  rw [strcmpInt, strcmpInt]
  rcases lt_trichotomy a b with h | h | h
  · simp [h, asymm h]
  · subst h
    simp
  · simp [h, asymm h]

theorem truncQ_neg (q : ℚ) : truncQ (-q) = - truncQ q := by
  rcases lt_trichotomy q 0 with h | h | h
  · rw [truncQ, truncQ, if_pos (by linarith), if_neg (by linarith), Int.floor_neg]
  · subst h
    simp [truncQ]
  · rw [truncQ, truncQ, if_neg (by linarith), if_pos (by linarith), Int.ceil_neg]

theorem compare_log_sym_neg (a b : Symb) :
    rspamd_task_compare_log_sym b a = - rspamd_task_compare_log_sym a b := by
  rw [rspamd_task_compare_log_sym, rspamd_task_compare_log_sym]
  by_cases h : |a.score| = |b.score|
  · rw [if_pos h.symm, if_pos h, strcmpInt_neg]
  · rw [if_neg (fun hsymm => h hsymm.symm), if_neg h]
    have hflip : (|a.score| - |b.score|) * 1000 = -((|b.score| - |a.score|) * 1000) := by
      ring
    rw [hflip, truncQ_neg]

/-- Any two comparator-sorted permutations of the same elements coincide,
provided the comparator is antisymmetric on those elements. -/
theorem symsSorted_perm_unique : ∀ (l₁ l₂ : List Symb), l₁.Perm l₂ →
    l₁.Pairwise (fun a b => rspamd_task_compare_log_sym a b ≤ 0) →
    l₂.Pairwise (fun a b => rspamd_task_compare_log_sym a b ≤ 0) →
    (∀ a, a ∈ l₁ → ∀ b, b ∈ l₁ →
      rspamd_task_compare_log_sym a b ≤ 0 → rspamd_task_compare_log_sym b a ≤ 0 → a = b) →
    l₁ = l₂ := by
  intro l₁
  induction l₁ with
  | nil =>
    intro l₂ hp _ _ _
    exact (hp.symm.eq_nil).symm
  | cons a t₁ ih =>
    intro l₂ hp hs₁ hs₂ hanti
    cases l₂ with
    | nil => exact absurd hp.eq_nil (by simp)
    | cons b t₂ =>
      have hmem_b : b ∈ a :: t₁ := hp.mem_iff.mpr (List.mem_cons_self b t₂)
      have hmem_a : a ∈ b :: t₂ := hp.mem_iff.mp (List.mem_cons_self a t₁)
      have hab : a = b := by
        rcases List.mem_cons.mp hmem_b with hba | hbt
        · exact hba.symm
        · rcases List.mem_cons.mp hmem_a with hab' | hat
          · exact hab'
          · have h1 : rspamd_task_compare_log_sym a b ≤ 0 :=
              (List.pairwise_cons.mp hs₁).1 b hbt
            have h2 : rspamd_task_compare_log_sym b a ≤ 0 :=
              (List.pairwise_cons.mp hs₂).1 a hat
            exact hanti a (List.mem_cons_self a t₁) b hmem_b h1 h2
      subst hab
      have ht : t₁.Perm t₂ := hp.cons_inv
      have heq := ih t₂ ht (List.pairwise_cons.mp hs₁).2 (List.pairwise_cons.mp hs₂).2
        (fun x hx y hy => hanti x (List.mem_cons_of_mem a hx) y (List.mem_cons_of_mem a hy))
      rw [heq]

/-- C6 (amended): the SYMBOLS rendering is stable under permutation of the
hash-iteration (insertion) order, and lists names in `|score|`-descending,
name-ascending order, PROVIDED the comparator is decisive on the symbol set:
any two distinct symbols must compare non-zero (symbols whose `|score|`
difference is positive but below `0.001` as scaled by the comparator break
this, as `c6_symbol_sort_counterexample` shows).  `o₁`, `o₂` range over the
possible qsort outputs for two iteration orders of the same set. -/
theorem c6_symbol_sort_amended (l₁ l₂ o₁ o₂ : List Symb)
    (hperm : l₁.Perm l₂)
    (h1 : IsSortOutput l₁ o₁) (h2 : IsSortOutput l₂ o₂)
    (hnd : l₁.Nodup)
    (hdec : ∀ a, a ∈ l₁ → ∀ b, b ∈ l₁ →
      rspamd_task_compare_log_sym a b = 0 → a = b) :
    o₁ = o₂ ∧
    o₁.Pairwise (fun a b => |b.score| < |a.score| ∨
      (|a.score| = |b.score| ∧ a.name < b.name)) ∧
    (∀ fmt fS fP, renderLogSyms fmt fS fP o₁ true "" =
      renderLogSyms fmt fS fP o₂ true "") := by
  have hPermO : o₁.Perm o₂ := h1.1.trans (hperm.trans h2.1.symm)
  have hanti : ∀ a, a ∈ o₁ → ∀ b, b ∈ o₁ →
      rspamd_task_compare_log_sym a b ≤ 0 → rspamd_task_compare_log_sym b a ≤ 0 →
      a = b := by
    intro a ha b hb hle1 hle2
    refine hdec a (h1.1.subset ha) b (h1.1.subset hb) ?_
    have hneg := compare_log_sym_neg a b
    omega
  have hmain : o₁ = o₂ := symsSorted_perm_unique o₁ o₂ hPermO h1.2 h2.2 hanti
  refine ⟨hmain, ?_, fun fmt fS fP => by rw [hmain]⟩
  have hnodup : o₁.Nodup := h1.1.symm.nodup hnd
  have hcomb := h1.2.and hnodup
  refine List.Pairwise.imp_of_mem ?_ hcomb
  intro a b ha hb hR
  obtain ⟨hle, hne⟩ := hR
  have hne0 : rspamd_task_compare_log_sym a b ≠ 0 :=
    fun h0 => hne (hdec a (h1.1.subset ha) b (h1.1.subset hb) h0)
  have hlt : rspamd_task_compare_log_sym a b < 0 := lt_of_le_of_ne hle hne0
  rw [rspamd_task_compare_log_sym] at hlt
  by_cases heq : |a.score| = |b.score|
  · rw [if_pos heq] at hlt
    right
    refine ⟨heq, ?_⟩
    rw [strcmpInt] at hlt
    by_cases hab : a.name < b.name
    · exact hab
    · rw [if_neg hab] at hlt
      by_cases hba : b.name < a.name
      · rw [if_pos hba] at hlt
        omega
      · rw [if_neg hba] at hlt
        omega
  · rw [if_neg heq] at hlt
    left
    have hq : (|b.score| - |a.score|) * 1000 < 0 := by
      by_contra hge
      push_neg at hge
      rw [truncQ, if_pos hge] at hlt
      have := Int.floor_nonneg.mpr hge
      omega
    nlinarith [hq]

/-- Witness for `c6_symbol_sort_amended` on a decisive singleton set. -/
theorem c6_symbol_sort_amended_witness :
    (IsSortOutput [symA] [symA] ∧ ([symA] : List Symb).Nodup) ∧
    (([symA] : List Symb) = [symA] ∧
      ([symA] : List Symb).Pairwise (fun a b => |b.score| < |a.score| ∨
        (|a.score| = |b.score| ∧ a.name < b.name))) := by
  have hso : IsSortOutput [symA] [symA] := ⟨List.Perm.refl _, by simp⟩
  have hdec1 : ∀ a, a ∈ [symA] → ∀ b, b ∈ [symA] →
      rspamd_task_compare_log_sym a b = 0 → a = b := by
    intro a ha b hb _
    have ha' : a = symA := by simpa using ha
    have hb' : b = symA := by simpa using hb
    rw [ha', hb']
  exact ⟨⟨hso, by simp⟩,
    ⟨(c6_symbol_sort_amended [symA] [symA] [symA] [symA] (List.Perm.refl _)
        hso hso (by simp) hdec1).1,
      (c6_symbol_sort_amended [symA] [symA] [symA] [symA] (List.Perm.refl _)
        hso hso (by simp) hdec1).2.1⟩⟩

/-! ### Log formatter: variable resolution (`rspamd_task_log_variable`,
`rspamd_task_log_metric_res`)

External formatting helpers (`%.2f` score formatting, `rspamd_action_to_str`,
`rspamd_log_check_time`, the qsort call) are an environment; the sort is a
function here since only its output order matters to the variable writer. -/

inductive LogType where
  | mid
  | qid
  | user
  | ip
  | len
  | dns_req
  | time_real
  | time_virtual
  | smtp_from
  | mime_from
  | smtp_rcpt
  | mime_rcpt
  | smtp_rcpts
  | mime_rcpts
  | isspam
  | action
  | scores
  | symbols
  deriving DecidableEq

structure LogFlags where
  condition : Bool
  symbols_scores : Bool
  symbols_params : Bool
  deriving DecidableEq

/-- One `rspamd_log_format` item of variable kind: its type tag, flags and
optional content template (`lf->data`). -/
structure LogFormat where
  type : LogType
  flags : LogFlags
  data : Option String
  deriving DecidableEq

structure LogEnv where
  fmt2 : ℚ → String
  action_to_str : Nat → String
  sortSyms : List Symb → List Symb
  time_real_str : String
  time_virtual_str : String

/-- `rspamd_task_log_metric_res`: the ISSPAM/ACTION/SCORES/SYMBOLS token,
empty (the `{NULL, 0}` ftok) when the default metric has no result. -/
def rspamd_task_log_metric_res (env : LogEnv) (t : TaskState) (lf : LogFormat) : String :=
  match lookupExact t.results DEFAULT_METRIC with
  | none => ""
  | some mres =>
    match lf.type with
    | .isspam =>
      if t.flags.skipped then "S"
      else if mres.action = METRIC_ACTION_REJECT then "T"
      else "F"
    | .action => env.action_to_str mres.action
    | .scores => env.fmt2 mres.score ++ "/" ++ env.fmt2 mres.reject_limit
    | .symbols =>
      renderLogSyms env.fmt2 lf.flags.symbols_scores lf.flags.symbols_params
        (env.sortSyms mres.symbols) true ""
    | _ => ""

/-- `rspamd_task_log_variable`: resolves a VAR item and appends it through
`rspamd_task_log_write_var`; address-list types delegate to the list
renderers, everything resolving to an empty token appends nothing at all. -/
def rspamd_task_log_variable (env : LogEnv) (t : TaskState) (lf : LogFormat)
    (logbuf : String) : String :=
  match lf.type with
  | .mime_from =>
    match t.from_mime with
    | some l => rspamd_task_write_ialist l 1 lf.data logbuf
    | none => logbuf
  | .smtp_rcpt =>
    match t.rcpt_envelope with
    | some l => rspamd_task_write_addr_list l 1 lf.data logbuf
    | none => logbuf
  | .mime_rcpt =>
    match t.rcpt_mime with
    | some l => rspamd_task_write_ialist l 1 lf.data logbuf
    | none => logbuf
  | .smtp_rcpts =>
    match t.rcpt_envelope with
    | some l => rspamd_task_write_addr_list l (-1) lf.data logbuf
    | none => logbuf
  | .mime_rcpts =>
    match t.rcpt_mime with
    | some l => rspamd_task_write_ialist l (-1) lf.data logbuf
    | none => logbuf
  | ty =>
    let var : String :=
      match ty with
      | .mid => t.message_id.getD "undef"
      | .qid => t.queue_id.getD "undef"
      | .user => t.user.getD "undef"
      | .ip =>
        match t.from_addr with
        | some addr => if addr.valid then addr.str else "undef"
        | none => "undef"
      | .len => toString t.msg.len
      | .dns_req => toString t.dns_requests
      | .time_real => env.time_real_str
      | .time_virtual => env.time_virtual_str
      | .smtp_from =>
        match t.from_envelope with
        | some addr => addr
        | none => ""
      | _ => rspamd_task_log_metric_res env t lf
    if 0 < var.length then rspamd_task_log_write_var logbuf var lf.data else logbuf

/-- C10: a VAR item whose resolved value is empty appends nothing to the log
buffer — the content template is omitted entirely, not emitted with an empty
substitution: SMTP_FROM with no envelope sender, and
ISSPAM/ACTION/SCORES/SYMBOLS with no default-metric result, all leave the
buffer untouched for every content template. -/
theorem c10_empty_var_omitted (env : LogEnv) (t : TaskState) (fl : LogFlags)
    (content : Option String) (logbuf : String) :
    (t.from_envelope = none →
      rspamd_task_log_variable env t ⟨.smtp_from, fl, content⟩ logbuf = logbuf) ∧
    (lookupExact t.results DEFAULT_METRIC = none →
      rspamd_task_log_variable env t ⟨.isspam, fl, content⟩ logbuf = logbuf ∧
      rspamd_task_log_variable env t ⟨.action, fl, content⟩ logbuf = logbuf ∧
      rspamd_task_log_variable env t ⟨.scores, fl, content⟩ logbuf = logbuf ∧
      rspamd_task_log_variable env t ⟨.symbols, fl, content⟩ logbuf = logbuf) := by
  constructor
  · intro h
    simp [rspamd_task_log_variable, h]
  · intro h
    refine ⟨?_, ?_, ?_, ?_⟩ <;>
      simp [rspamd_task_log_variable, rspamd_task_log_metric_res, h]

def trivialLogEnv : LogEnv where
  fmt2 := fun _ => ""
  action_to_str := fun _ => ""
  sortSyms := id
  time_real_str := ""
  time_virtual_str := ""

/-- Witness for `c10_empty_var_omitted`: a fresh task (no envelope sender, no
results) with non-trivial content templates. -/
theorem c10_empty_var_omitted_witness :
    (rspamd_task_new.from_envelope = none ∧
      lookupExact rspamd_task_new.results DEFAULT_METRIC = none) ∧
    rspamd_task_log_variable trivialLogEnv rspamd_task_new
      ⟨.smtp_from, ⟨false, false, false⟩, some "from <$>"⟩ "log: " = "log: " ∧
    rspamd_task_log_variable trivialLogEnv rspamd_task_new
      ⟨.symbols, ⟨false, false, false⟩, some "syms <$>"⟩ "log: " = "log: " :=
  ⟨⟨rfl, rfl⟩,
    (c10_empty_var_omitted trivialLogEnv rspamd_task_new ⟨false, false, false⟩
      (some "from <$>") "log: ").1 rfl,
    ((c10_empty_var_omitted trivialLogEnv rspamd_task_new ⟨false, false, false⟩
      (some "syms <$>") "log: ").2 rfl).2.2.2⟩
